import Mathlib

/-
Verification of the streaming transport bridge and agentic tool-call loop of
the ai-sdk-openai-websocket repository.

The embedding below translates, into Lean, the parts of the source that the
claims talk about:
  * src/lib/chat-api.ts            (convertToOpenAIInput, executeFunctionCalls)
  * src/app/api/chat-ws/route.ts   (processStep translator, POST tool-call loop)
  * src/app/api/chat/route.ts      (runStep SSE translator and recursive loop)
  * src/server.mts                 (per-session anchor handling, token stats)
  * src/unnamed/part_004           (truncate)
  * src/unnamed/part_006           (createWebSocketFetch connection manager)

Modelling conventions: machine strings are Lean String except tool outputs,
which are List Char so that length/truncation arithmetic is structural;
wall-clock data (ttfb, Date.now-based text-part ids) is abstracted: the
text-part id generator is passed in as a parameter, and start-step carries no
payload. JSON parsing of tool arguments is abstracted: the emitted
tool-input-available payload carries the raw argument text (the source emits
the parsed form when the text parses and the raw text otherwise; no claim
inspects the parsed structure).
-/

namespace WsChat

/-- Role of a client message, from the ClientMessage interface in
src/lib/chat-api.ts lines 63-67. -/
inductive Role where
  | user
  | assistant
  | system
deriving DecidableEq, Repr

/-- One part of a client message (src/lib/chat-api.ts lines 58-61).
`text` is `some s` when the part has a string text field, `none` when the
field is absent or not a string. -/
structure MessagePart where
  type : String
  text : Option String
deriving DecidableEq, Repr

/-- A chat message sent by the caller (src/lib/chat-api.ts lines 63-67). -/
structure ClientMessage where
  id : String
  role : Role
  parts : List MessagePart
deriving DecidableEq, Repr

/-- A content entry of a converted input item: type is the string
output_text or input_text. -/
structure ContentItem where
  type : String
  text : String
deriving DecidableEq, Repr

/-- An item of the outbound request input list, produced by
convertToOpenAIInput. -/
structure InputItem where
  type : String
  role : Role
  content : List ContentItem
deriving DecidableEq, Repr

/-- Translation of src/lib/chat-api.ts lines 75-88 (identical copy in
src/server.mts lines 87-100): keep only parts whose type is the string text
and whose text field holds a string, and tag content entries output_text for
assistant messages and input_text otherwise.  The filter guarantees
`p.text.isSome`, so the `getD` default is never used. -/
def convertToOpenAIInput (messages : List ClientMessage) : List InputItem :=
  messages.map fun m =>
    let textParts := m.parts.filter fun p => p.type == "text" && p.text.isSome
    let contentType := if m.role = Role.assistant then "output_text" else "input_text"
    { type := "message"
      role := m.role
      content := textParts.map fun p => { type := contentType, text := p.text.getD "" } }

/-- Usage counters on a completed response.  The source reads
`usage.input_tokens ?? 0`, `usage.input_tokens_details?.cached_tokens ?? 0`
and `usage.output_tokens ?? 0`; the nullable reads are folded into Nat
fields here. -/
structure Usage where
  input_tokens : Nat
  cached_tokens : Nat
  output_tokens : Nat
deriving DecidableEq, Repr

/-- A requested callable action (PendingToolCall interface,
src/lib/chat-api.ts lines 69-73). -/
structure FunctionCall where
  call_id : String
  name : String
  arguments : String
deriving DecidableEq, Repr

/-- An entry of a completed response's output array: either a function_call
item or an item of any other type. -/
inductive OutputItem where
  | functionCall (fc : FunctionCall)
  | other
deriving DecidableEq, Repr

/-- The response object carried by response.created / response.completed
frames. -/
structure ResponseObj where
  id : String
  usage : Option Usage
  output : List OutputItem
deriving DecidableEq, Repr

/-- Inbound streaming frames (the event.type switch of the translators).
`unknown` stands for any frame type the switch has no case for. -/
inductive Frame where
  | responseCreated (id : String)
  | outputTextDelta (delta : String)
  | outputTextDone
  | outputItemAdded (item : OutputItem)
  | functionCallArgumentsDelta (item_id : String) (delta : String)
  | outputItemDone (item : OutputItem)
  | responseCompleted (response : ResponseObj)
  | errorFrame (message : String)
  | unknown
deriving DecidableEq, Repr

/-- Caller-facing chunk vocabulary.  start-step carries no payload here:
in the source it carries the response id and a wall-clock ttfb, which the
embedding abstracts away. -/
inductive Chunk where
  | start (messageId : String)
  | startStep
  | textStart (id : String)
  | textDelta (id : String) (delta : String)
  | textEnd (id : String)
  | toolInputStart (toolCallId : String) (toolName : String)
  | toolInputDelta (toolCallId : String) (delta : String)
  | toolInputAvailable (toolCallId : String) (toolName : String) (input : String)
  | toolOutputAvailable (toolCallId : String) (output : List Char)
  | finishStep
  | finish
  | error (errorText : String)
  | dataStats (input : Nat) (inputCached : Nat) (output : Nat)
deriving DecidableEq, Repr

/-- Cumulative token counters (the cumulativeTokens record of the routes). -/
structure Tokens where
  input : Nat
  inputCached : Nat
  output : Nat
deriving DecidableEq, Repr

/-- Usage accumulation on response.completed (src/app/api/chat-ws/route.ts
lines 233-239): a missing usage object adds nothing. -/
def addUsage (t : Tokens) : Option Usage → Tokens
  | none => t
  | some u =>
      { input := t.input + u.input_tokens
        inputCached := t.inputCached + u.cached_tokens
        output := t.output + u.output_tokens }

/-- The maximum number of tool steps (MAX_STEPS in src/lib/chat-api.ts
line 6). -/
def MAX_STEPS : Nat := 30

/-- The truncation marker appended to overlong tool outputs
(src/unnamed/part_004 line 39 and src/lib/chat-api.ts line 149). -/
def truncMarker : List Char := ("\n... (truncated)").toList

/-- Translation of the truncate helper of src/unnamed/part_004 lines 37-41
(the same expression appears inline in src/lib/chat-api.ts lines 147-150
and src/server.mts lines 709-712), at the default maximum of 10000. -/
def truncate (value : List Char) : List Char :=
  if value.length > 10000 then value.take 10000 ++ truncMarker else value

/-- The output string recorded for a throwing tool handler
(src/lib/chat-api.ts line 144). -/
def errString (message : List Char) : List Char := ("Error: ").toList ++ message

/-- A tool handler outcome: `ok` is the stringified result of a successful
execute call, `error` carries the thrown error's message.  This abstracts
`bashTools[fc.name].execute(args)` together with the argument JSON parse:
an unknown tool name or a throwing handler both surface as `error`. -/
abbrev ToolHandlers := FunctionCall → Except (List Char) (List Char)

/-- A function_call_output item pushed for the next request's input
(src/lib/chat-api.ts lines 159-163). -/
structure ToolOutput where
  call_id : String
  output : List Char
deriving DecidableEq, Repr

/-- Translation of executeFunctionCalls (src/lib/chat-api.ts lines 112-167):
runs the requested calls in order, converts a throwing handler into an
Error-prefixed output string, truncates, emits one tool-output-available
chunk per call, and collects the function_call_output items. -/
def executeFunctionCalls (handlers : ToolHandlers) :
    List FunctionCall → List ToolOutput × List Chunk
  | [] => ([], [])
  | fc :: rest =>
    let result := match handlers fc with
      | Except.ok r => r
      | Except.error e => errString e
    let truncatedResult := truncate result
    let t := executeFunctionCalls handlers rest
    ({ call_id := fc.call_id, output := truncatedResult } :: t.1,
     Chunk.toolOutputAvailable (("tool-") ++ fc.call_id) truncatedResult :: t.2)

/-- Scratch state of the per-request chunk translator
(src/app/api/chat-ws/route.ts lines 49-52). -/
structure TransState where
  pending : List FunctionCall
  textPartId : String
  isFirstDelta : Bool
  firstResponse : Bool
deriving DecidableEq, Repr

/-- Initial translator state for one step (src/app/api/chat-ws/route.ts
lines 49-52: empty pending list, empty text-part id, first-delta flag set). -/
def initTransState (firstResponse : Bool) : TransState :=
  { pending := [], textPartId := "", isFirstDelta := true, firstResponse := firstResponse }

/-- Selects the function_call items of a response output array
(the `.filter(o => o.type === 'function_call')` of the routes). -/
def fcOfItem : OutputItem → Option FunctionCall
  | OutputItem.functionCall fc => some fc
  | OutputItem.other => none

/-- Overwrites the argument buffer of the pending call matching the finished
item (the `tc.arguments = event.item.arguments` mutation on
response.output_item.done). -/
def updatePending (pending : List FunctionCall) (fc : FunctionCall) : List FunctionCall :=
  pending.map fun t =>
    if t.call_id == fc.call_id then { t with arguments := fc.arguments } else t

/-- One non-terminal case of the onMessage switch of processStep
(src/app/api/chat-ws/route.ts lines 54-145; the identical switch appears in
src/app/api/chat/route.ts lines 108-191).  `g` is the text-part id that the
source would generate from Date.now and Math.random on the first text delta.
Returns the updated scratch state and the chunks sent.  The terminal cases
(response.completed, error) are handled by processStep below and return the
state unchanged here. -/
def stepFrame (g : String) (st : TransState) : Frame → TransState × List Chunk
  | Frame.responseCreated id =>
      let startChunks := if st.firstResponse then [Chunk.start (("msg-") ++ id)] else []
      ({ st with firstResponse := false }, startChunks ++ [Chunk.startStep])
  | Frame.outputTextDelta delta =>
      if st.isFirstDelta then
        ({ st with textPartId := g, isFirstDelta := false },
         [Chunk.textStart g, Chunk.textDelta g delta])
      else
        (st, [Chunk.textDelta st.textPartId delta])
  | Frame.outputTextDone => (st, [Chunk.textEnd st.textPartId])
  | Frame.outputItemAdded item =>
      match fcOfItem item with
      | some fc =>
          ({ st with pending := st.pending ++ [{ fc with arguments := "" }] },
           [Chunk.toolInputStart (("tool-") ++ fc.call_id) fc.name])
      | none => (st, [])
  | Frame.functionCallArgumentsDelta item_id delta =>
      match st.pending.find? (fun t => t.call_id == item_id) with
      | some tc => (st, [Chunk.toolInputDelta (("tool-") ++ tc.call_id) delta])
      | none => (st, [])
  | Frame.outputItemDone item =>
      match fcOfItem item with
      | some fc =>
          match st.pending.find? (fun t => t.call_id == fc.call_id) with
          | some tc =>
              ({ st with pending := updatePending st.pending fc },
               [Chunk.toolInputAvailable (("tool-") ++ tc.call_id) tc.name fc.arguments])
          | none => (st, [])
      | none => (st, [])
  | Frame.responseCompleted _ => (st, [])
  | Frame.errorFrame _ => (st, [])
  | Frame.unknown => (st, [])

/-- What processStep resolves with (the StepResult interface of
src/app/api/chat-ws/route.ts lines 17-25). -/
structure StepResult where
  functionCalls : List FunctionCall
  responseId : String
  usage : Option Usage
deriving DecidableEq, Repr

/-- How one processStep promise settles: `completed` carries the resolved
StepResult and the current first-response flag, `failed` is a rejection from
an error frame, and `hung` is a frame sequence that ended without a terminal
frame, on which the promise never settles. -/
inductive Outcome where
  | completed (result : StepResult) (firstResponse : Bool)
  | failed (message : String)
  | hung
deriving DecidableEq, Repr

/-- Translation of processStep (src/app/api/chat-ws/route.ts lines 40-190)
driven over the inbound frame sequence of one request: response.completed
detaches the listener and resolves, an error frame rejects, every other
frame updates the scratch state and may send chunks. -/
def processStep (g : String) (st : TransState) : List Frame → List Chunk × Outcome
  | [] => ([], Outcome.hung)
  | f :: rest =>
    match f with
    | Frame.responseCompleted r =>
        ([], Outcome.completed
              { functionCalls := r.output.filterMap fcOfItem
                responseId := r.id
                usage := r.usage }
              st.firstResponse)
    | Frame.errorFrame m => ([], Outcome.failed m)
    | _ =>
        let s := stepFrame g st f
        let t := processStep g s.1 rest
        (s.2 ++ t.1, t.2)

/-- Translation of the POST tool-call loop of src/app/api/chat-ws/route.ts
lines 214-274.  `upstream i` is the inbound frame sequence answering the
i-th request of the turn and `genTextId i` the text-part id generated
during it.  `remaining` stands for `MAX_STEPS - stepCount`; in Nat
arithmetic `stepCount < MAX_STEPS` holds exactly when `0 < remaining`, so
the loop guard `functionCalls.length > 0 && stepCount < MAX_STEPS` becomes
the split on the remaining budget together with the match on a nonempty
call list (a zero budget always terminates the turn, whatever the calls,
exactly like the guard).  Returns
the chunks sent and the number of tool batches executed (which equals the
final stepCount).  On a rejected step the catch block sends a terminal
error chunk; on a hung step nothing further is ever sent. -/
def wsLoop (upstream : Nat → List Frame) (genTextId : Nat → String)
    (handlers : ToolHandlers) :
    Nat → Nat → Bool → Tokens → List Chunk × Nat
  | 0, stepIdx, firstResponse, cum =>
    match processStep (genTextId stepIdx) (initTransState firstResponse) (upstream stepIdx) with
    | (chunks, Outcome.failed msg) => (chunks ++ [Chunk.error msg], 0)
    | (chunks, Outcome.hung) => (chunks, 0)
    | (chunks, Outcome.completed result _) =>
      let cum' := addUsage cum result.usage
      let head := chunks ++ [Chunk.dataStats cum'.input cum'.inputCached cum'.output]
      (head ++ [Chunk.finishStep, Chunk.finish], 0)
  | rem + 1, stepIdx, firstResponse, cum =>
    match processStep (genTextId stepIdx) (initTransState firstResponse) (upstream stepIdx) with
    | (chunks, Outcome.failed msg) => (chunks ++ [Chunk.error msg], 0)
    | (chunks, Outcome.hung) => (chunks, 0)
    | (chunks, Outcome.completed result fr) =>
      let cum' := addUsage cum result.usage
      let head := chunks ++ [Chunk.dataStats cum'.input cum'.inputCached cum'.output]
      match result.functionCalls with
      | [] => (head ++ [Chunk.finishStep, Chunk.finish], 0)
      | fc :: fcs =>
        let eo := executeFunctionCalls handlers (fc :: fcs)
        let rest := wsLoop upstream genTextId handlers rem (stepIdx + 1) fr cum'
        (head ++ eo.2 ++ Chunk.finishStep :: rest.1, rest.2 + 1)

/-- One whole turn of the websocket route: stepCount starts at 0 (so the
remaining budget is maxSteps), the first response flag is set and the
token accumulator is zeroed (src/app/api/chat-ws/route.ts lines 208-219). -/
def wsTurn (upstream : Nat → List Frame) (genTextId : Nat → String)
    (handlers : ToolHandlers) (maxSteps : Nat) : List Chunk × Nat :=
  wsLoop upstream genTextId handlers maxSteps 0 true { input := 0, inputCached := 0, output := 0 }

/-- How the SSE reading loop of runStep (src/app/api/chat/route.ts lines
83-205) finishes: an error frame sends a terminal error chunk and returns
from runStep; the stream ending with a recorded response.completed event
continues into the tool-call decision; the stream ending without one hits
the silent `if (!completedEvent) return` at line 207. -/
inductive HttpOut where
  | errored
  | noCompleted
  | completed (r : ResponseObj)
deriving DecidableEq, Repr

/-- Translation of the SSE frame loop of runStep (src/app/api/chat/route.ts
lines 83-205).  Unlike the websocket variant, response.completed is only
recorded (`completedEvent = event`) and frames after it keep being
processed; an error frame sends the error chunk and returns immediately.
Returns the chunks sent, the final scratch state (whose first-response flag
persists into the next step) and how the loop finished. -/
def httpProcessFrames (g : String) (st : TransState) (completedEvent : Option ResponseObj) :
    List Frame → List Chunk × TransState × HttpOut
  | [] =>
    ([], st, match completedEvent with
             | some r => HttpOut.completed r
             | none => HttpOut.noCompleted)
  | f :: rest =>
    match f with
    | Frame.errorFrame m => ([Chunk.error m], st, HttpOut.errored)
    | Frame.responseCompleted r => httpProcessFrames g st (some r) rest
    | _ =>
        let s := stepFrame g st f
        let t := httpProcessFrames g s.1 completedEvent rest
        (s.2 ++ t.1, t.2)

/-- Translation of the recursive runStep loop of src/app/api/chat/route.ts
lines 36-240: after the SSE loop, a missing completed event returns with no
further chunk, otherwise usage is accumulated, data-stats sent, and either
a tool batch runs followed by the next step, or finish-step and finish end
the turn.  `remaining` stands for `MAX_STEPS - stepCount` exactly as in
`wsLoop`. -/
def httpLoop (upstream : Nat → List Frame) (genTextId : Nat → String)
    (handlers : ToolHandlers) :
    Nat → Nat → Bool → Tokens → List Chunk
  | remaining, stepIdx, firstResponse, cum =>
    let s := httpProcessFrames (genTextId stepIdx) (initTransState firstResponse) none
              (upstream stepIdx)
    match s.2.2 with
    | HttpOut.errored => s.1
    | HttpOut.noCompleted => s.1
    | HttpOut.completed r =>
      let cum' := addUsage cum r.usage
      let head := s.1 ++ [Chunk.dataStats cum'.input cum'.inputCached cum'.output]
      match r.output.filterMap fcOfItem, remaining with
      | fc :: fcs, rem + 1 =>
        let eo := executeFunctionCalls handlers (fc :: fcs)
        head ++ eo.2 ++ Chunk.finishStep ::
          httpLoop upstream genTextId handlers rem (stepIdx + 1) s.2.1.firstResponse cum'
      | _, _ => head ++ [Chunk.finishStep, Chunk.finish]

/-- One whole turn of the HTTP route (src/app/api/chat/route.ts lines
28-31 and 242-254): stepCount 0, first-response flag set, zeroed token
accumulator. -/
def httpTurn (upstream : Nat → List Frame) (genTextId : Nat → String)
    (handlers : ToolHandlers) (maxSteps : Nat) : List Chunk :=
  httpLoop upstream genTextId handlers maxSteps 0 true
    { input := 0, inputCached := 0, output := 0 }

/-- State of the createWebSocketFetch connection manager
(src/unnamed/part_006 lines 42-44): the stored open socket, whether its
readyState is OPEN, the pending connection attempt, the busy flag, and a
counter supplying ids for newly constructed sockets (each `new WebSocket`
gets the next id). -/
structure ConnState where
  ws : Option Nat
  wsOpen : Bool
  connecting : Option Nat
  busy : Bool
  nextId : Nat
deriving DecidableEq, Repr

/-- What getConnection hands the caller: the stored open socket, the shared
pending attempt, or a freshly constructed socket. -/
inductive Handed where
  | reuse (c : Nat)
  | sharePending (c : Nat)
  | fresh (c : Nat)
deriving DecidableEq, Repr

/-- The socket id a Handed value refers to. -/
def handedId : Handed → Nat
  | Handed.reuse c => c
  | Handed.sharePending c => c
  | Handed.fresh c => c

/-- Translation of getConnection (src/unnamed/part_006 lines 46-80): reuse
the stored socket when it is open and not busy; share the pending attempt
when one exists and not busy; otherwise construct a new WebSocket and store
it as the pending attempt.  The asynchronous open/error/close callbacks are
outside the decision modelled here. -/
def getConnection (s : ConnState) : Handed × ConnState :=
  if s.ws.isSome && s.wsOpen && !s.busy then
    (Handed.reuse (s.ws.getD 0), s)
  else if s.connecting.isSome && !s.busy then
    (Handed.sharePending (s.connecting.getD 0), s)
  else
    (Handed.fresh s.nextId,
     { s with connecting := some s.nextId, nextId := s.nextId + 1 })

/-- The start of websocketFetch's streaming branch (src/unnamed/part_006
lines 111-112): acquire a connection, then set the busy flag before sending
the request on it. -/
def startRequest (s : ConnState) : Handed × ConnState :=
  let t := getConnection s
  (t.1, { t.2 with busy := true })

/-- Per-client session state of the websocket server
(src/server.mts lines 490-491): the continuation anchor and whether the
upstream OpenAI socket is present and open. -/
structure WsSession where
  previousResponseId : Option String
  connAlive : Bool
deriving DecidableEq, Repr

/-- The session state of a freshly connected client (src/server.mts lines
490-491: both variables start null). -/
def initSession : WsSession := { previousResponseId := none, connAlive := false }

/-- Session-relevant events observed by the server between and during
turns. -/
inductive SessionEvent where
  | completedResp (id : String)
  | upstreamError
  | connClosed
deriving DecidableEq, Repr

/-- How each event updates the session state in src/server.mts:
response.completed stores the anchor (line 658); the upstream error case
(lines 760-767) sends an error chunk and detaches the listener but leaves
previousResponseId untouched; the OpenAI socket close handler (lines
513-516) nulls the socket but likewise leaves previousResponseId
untouched. -/
def sessionStep (s : WsSession) : SessionEvent → WsSession
  | SessionEvent.completedResp id => { s with previousResponseId := some id }
  | SessionEvent.upstreamError => s
  | SessionEvent.connClosed => { s with connAlive := false }

/-- Folds a sequence of observed events over the session state. -/
def sessionSteps (s : WsSession) (events : List SessionEvent) : WsSession :=
  events.foldl sessionStep s

/-- The most recent user message: `[...messages].reverse().find(m =>
m.role === 'user')` of src/server.mts lines 540-542. -/
def lastUserMessage (messages : List ClientMessage) : Option ClientMessage :=
  messages.reverse.find? fun m => m.role == Role.user

/-- The outbound response.create request as far as the session coordinator
determines it: the input items and the optional previous_response_id. -/
structure TurnRequest where
  input : List InputItem
  previous_response_id : Option String
deriving DecidableEq, Repr

/-- Translation of the per-turn input decision of src/server.mts lines
537-548 together with the body assembly of lines 781-790: with a stored
anchor, the input is the conversion of just the last user message (empty if
there is none) and the anchor is attached; without one, the input is the
conversion of the whole message list and no anchor is attached. -/
def buildTurnRequest (s : WsSession) (messages : List ClientMessage) : TurnRequest :=
  let input :=
    if s.previousResponseId.isSome then
      match lastUserMessage messages with
      | some m => convertToOpenAIInput [m]
      | none => []
    else
      convertToOpenAIInput messages
  { input := input, previous_response_id := s.previousResponseId }

/-- The data-stats payloads emitted while one accumulator runs over a list
of per-step usage reports (src/server.mts lines 662-668: on each completed
response the usage is added to cumulativeTokens and one data-stats chunk is
sent). -/
def statsFrom (cum : Tokens) : List (Option Usage) → List Tokens
  | [] => []
  | u :: rest =>
    let c := addUsage cum u
    c :: statsFrom c rest

/-- The data-stats payloads of one turn.  The accumulator is declared
inside the per-message handler (src/server.mts lines 550-551:
`let cumulativeTokens = ...` inside `clientWs.on('message', ...)`), so every
turn starts from zero. -/
def turnStats (usages : List (Option Usage)) : List Tokens :=
  statsFrom { input := 0, inputCached := 0, output := 0 } usages

/-- The data-stats payloads of a whole session, one inner list per turn:
each turn's accumulator is fresh, so turns are independent. -/
def sessionStats (turns : List (List (Option Usage))) : List (List Tokens) :=
  turns.map turnStats

/-- Decides whether a frame sequence reaches a response.completed frame
(before any error frame) whose output holds exactly `n` function_call
items — an upstream response that requests `n` callable actions. -/
def completesWith (n : Nat) : List Frame → Bool
  | [] => false
  | Frame.responseCompleted r :: _ => (r.output.filterMap fcOfItem).length == n
  | Frame.errorFrame _ :: _ => false
  | _ :: rest => completesWith n rest

/-- Chunks the per-request translator may send (everything except the
loop-level finish-step, finish, error and data-stats chunks). -/
def translatorChunk : Chunk → Bool
  | Chunk.start _ => true
  | Chunk.startStep => true
  | Chunk.textStart _ => true
  | Chunk.textDelta _ _ => true
  | Chunk.textEnd _ => true
  | Chunk.toolInputStart _ _ => true
  | Chunk.toolInputDelta _ _ => true
  | Chunk.toolInputAvailable _ _ _ => true
  | _ => false

/-- Terminal chunks: finish and error. -/
def isTerminalChunk : Chunk → Bool
  | Chunk.finish => true
  | Chunk.error _ => true
  | _ => false

/-- Recognizer for the finish-step chunk. -/
def isFinishStep : Chunk → Bool
  | Chunk.finishStep => true
  | _ => false

/-- Recognizer for the finish chunk. -/
def isFinish : Chunk → Bool
  | Chunk.finish => true
  | _ => false

/-- The result string recorded for one call: the handler's stringified
result on success, the Error-prefixed message when the handler throws
(src/lib/chat-api.ts lines 132-145). -/
def resultFor (handlers : ToolHandlers) (fc : FunctionCall) : List Char :=
  match handlers fc with
  | Except.ok r => r
  | Except.error e => errString e

/-- The function_call_output item recorded for one call. -/
def outFor (handlers : ToolHandlers) (fc : FunctionCall) : ToolOutput :=
  { call_id := fc.call_id, output := truncate (resultFor handlers fc) }

/-- The tool-output-available chunk sent for one call. -/
def chunkFor (handlers : ToolHandlers) (fc : FunctionCall) : Chunk :=
  Chunk.toolOutputAvailable (("tool-") ++ fc.call_id) (truncate (resultFor handlers fc))

/-- An upstream that answers every request with a completed response
requesting exactly one callable action. -/
def oneCallUp : Nat → List Frame := fun _ =>
  [Frame.responseCreated ("r1"),
   Frame.responseCompleted
     { id := ("r1"), usage := none,
       output := [OutputItem.functionCall
                    { call_id := ("c1"), name := ("bash"), arguments := ("") }] }]

/-- A fixed text-part id generator standing in for the Date.now/random id. -/
def gW : Nat → String := fun _ => ("t0")

/-- Tool handlers that always succeed with a short output. -/
def hW : ToolHandlers := fun _ => Except.ok (("ok").toList)

/-- An upstream whose every response is plain text: created, one text delta
per given string, text done, completed with no callable actions. -/
def textOnlyUpstream (deltas : List String) (u : Option Usage) : Nat → List Frame :=
  fun _ =>
    Frame.responseCreated ("r1") ::
      (deltas.map Frame.outputTextDelta ++
        [Frame.outputTextDone,
         Frame.responseCompleted { id := ("r1"), usage := u, output := [] }])

/-- An upstream whose connection drops right after response.created: the
SSE stream delivered by the websocket fetch bridge ends (the onClose
handler of src/unnamed/part_006 lines 150-157 closes the stream) before any
completed or error frame. -/
def dropUpstream : Nat → List Frame := fun _ => [Frame.responseCreated ("r1")]

/-- A connection-manager state with socket 0 open and a request in flight
on it (busy), as left behind by a first websocketFetch call. -/
def busyState : ConnState :=
  { ws := some 0, wsOpen := true, connecting := none, busy := true, nextId := 1 }

/-- Shorthand for a message whose only part is one text part. -/
def textMsg (id : String) (role : Role) (text : String) : ClientMessage :=
  { id := id, role := role, parts := [{ type := ("text"), text := some text }] }

/-- A three-turn conversation transcript: user, assistant, user. -/
def msgsC5 : List ClientMessage :=
  [textMsg ("u1") Role.user ("hello"),
   textMsg ("a1") Role.assistant ("hi there"),
   textMsg ("u2") Role.user ("again")]

/-- Two requested calls for the tool-batch example. -/
def callsC9 : List FunctionCall :=
  [{ call_id := ("c1"), name := ("bash"), arguments := ("") },
   { call_id := ("c2"), name := ("readFile"), arguments := ("") }]

/-- Handlers where the first call throws and the second succeeds. -/
def handlersC9 : ToolHandlers := fun fc =>
  if fc.call_id == ("c1") then Except.error (("boom").toList)
  else Except.ok (("ok").toList)

/-- An assistant message mixing a text part, a non-text part and a text
part without a string text field, followed by a user message with one text
part. -/
def msgsC10 : List ClientMessage :=
  [{ id := ("m1"), role := Role.assistant,
     parts := [{ type := ("text"), text := some ("hi") },
               { type := ("image"), text := none },
               { type := ("text"), text := none }] },
   { id := ("m2"), role := Role.user,
     parts := [{ type := ("text"), text := some ("yo") }] }]

/-- The per-turn usage reports of a two-turn session where each turn's one
response reports 100 input and 50 output tokens. -/
def twoTurnUsage : List (List (Option Usage)) :=
  [[some { input_tokens := 100, cached_tokens := 0, output_tokens := 50 }],
   [some { input_tokens := 100, cached_tokens := 0, output_tokens := 50 }]]

/-- Frames handled by the non-terminal switch cases (everything but
response.completed and error). -/
def nonTerminal : Frame → Bool
  | Frame.responseCompleted _ => false
  | Frame.errorFrame _ => false
  | _ => true

/-- The truncation marker has 16 characters. -/
lemma truncMarker_length : truncMarker.length = 16 := by decide

/-- A truncated overlong value is the first 10000 characters followed by
the marker. -/
lemma truncate_of_long (v : List Char) (h : v.length > 10000) :
    truncate v = v.take 10000 ++ truncMarker := by
  simp [truncate, h]

/-- The sequential executeFunctionCalls loop carries no state from one call
to the next, so it is the per-call maps of outFor and chunkFor. -/
lemma executeFunctionCalls_eq_map (handlers : ToolHandlers) (calls : List FunctionCall) :
    executeFunctionCalls handlers calls =
      (calls.map (outFor handlers), calls.map (chunkFor handlers)) := by
  induction calls with
  | nil => rfl
  | cons fc rest ih =>
      simp [executeFunctionCalls, ih, outFor, chunkFor, resultFor]

/-- Claim C8: the tool-output truncation is idempotent: truncating an
already-truncated string changes nothing, because the first 10000
characters of a truncated string are exactly the original's first 10000
characters. -/
theorem c8_truncate_idempotent (s : List Char) : truncate (truncate s) = truncate s := by
  by_cases h : s.length > 10000
  · have htake : (s.take 10000).length = 10000 := by
      rw [List.length_take]
      omega
    have hlong : (s.take 10000 ++ truncMarker).length > 10000 := by
      rw [List.length_append, htake, truncMarker_length]
      omega
    have key := List.take_left (s.take 10000) truncMarker
    rw [htake] at key
    rw [truncate_of_long s h, truncate_of_long _ hlong, key]
  · simp [truncate, h]

/-- Claim C9: in a batch of requested calls, a handler that throws at
position i is captured as the Error-prefixed output string at position i,
one tool-output-available chunk is emitted per call in order, every call in
the batch produces an output, and no terminal (finish or error) chunk is
emitted by the batch, so the turn continues. -/
theorem c9_tool_error_captured (handlers : ToolHandlers) (calls : List FunctionCall)
    (i : Nat) (fc : FunctionCall) (msg : List Char)
    (hget : calls[i]? = some fc)
    (herr : handlers fc = Except.error msg) :
    (executeFunctionCalls handlers calls).1.length = calls.length ∧
    (executeFunctionCalls handlers calls).2.length = calls.length ∧
    (executeFunctionCalls handlers calls).1[i]? =
      some { call_id := fc.call_id, output := truncate (errString msg) } ∧
    (executeFunctionCalls handlers calls).2[i]? =
      some (Chunk.toolOutputAvailable (("tool-") ++ fc.call_id) (truncate (errString msg))) ∧
    (executeFunctionCalls handlers calls).2.countP isTerminalChunk = 0 := by
  rw [executeFunctionCalls_eq_map]
  refine ⟨by simp, by simp, ?_, ?_, ?_⟩
  · rw [List.getElem?_map, hget]
    simp [outFor, resultFor, herr]
  · rw [List.getElem?_map, hget]
    simp [chunkFor, resultFor, herr]
  · rw [List.countP_eq_zero]
    intro c hc
    rcases List.mem_map.mp hc with ⟨a, _, rfl⟩
    simp [chunkFor, isTerminalChunk]

/-- Claim C9 witness: in the concrete two-call batch where the first
handler throws with message boom, the first output is the truncated
Error-prefixed string, both calls still produce outputs and chunks, and no
terminal chunk is emitted. -/
theorem c9_tool_error_captured_witness :
    callsC9[0]? = some { call_id := ("c1"), name := ("bash"), arguments := ("") } ∧
    handlersC9 { call_id := ("c1"), name := ("bash"), arguments := ("") } =
      Except.error (("boom").toList) ∧
    ((executeFunctionCalls handlersC9 callsC9).1.length = callsC9.length ∧
     (executeFunctionCalls handlersC9 callsC9).2.length = callsC9.length ∧
     (executeFunctionCalls handlersC9 callsC9).1[0]? =
       some { call_id := ("c1"), output := truncate (errString (("boom").toList)) } ∧
     (executeFunctionCalls handlersC9 callsC9).2[0]? =
       some (Chunk.toolOutputAvailable (("tool-") ++ ("c1"))
               (truncate (errString (("boom").toList)))) ∧
     (executeFunctionCalls handlersC9 callsC9).2.countP isTerminalChunk = 0) := by
  refine ⟨rfl, rfl, ?_⟩
  exact c9_tool_error_captured handlersC9 callsC9 0
    { call_id := ("c1"), name := ("bash"), arguments := ("") }
    (("boom").toList) rfl rfl

/-- Filtering to parts with a text string and reading the text equals a
filterMap keeping the text field of text-typed parts. -/
lemma textParts_eq_filterMap (parts : List MessagePart) :
    ((parts.filter fun p => p.type == "text" && p.text.isSome).map
        fun p => p.text.getD "") =
      parts.filterMap fun p => if p.type == "text" then p.text else none := by
  induction parts with
  | nil => rfl
  | cons p rest ih =>
      by_cases ht : p.type = "text"
      · cases hx : p.text with
        | none => simp [List.filter_cons, List.filterMap_cons, ht, hx, ih]
        | some s => simp [List.filter_cons, List.filterMap_cons, ht, hx, ih]
      · simp [List.filter_cons, List.filterMap_cons, beq_iff_eq, ht, ih]

/-- Claim C10: convertToOpenAIInput yields one item per message in order;
the item at any position is a message-typed item with the same role whose
content is exactly the text of the message's text parts (non-text parts and
text parts without a string are dropped), and each content entry is typed
output_text when the message role is assistant and input_text otherwise —
in particular output_text occurs exactly on assistant messages. -/
theorem c10_convert_shape (messages : List ClientMessage) (i : Nat) (m : ClientMessage)
    (hget : messages[i]? = some m) :
    (convertToOpenAIInput messages).length = messages.length ∧
    ∃ item, (convertToOpenAIInput messages)[i]? = some item ∧
      item.type = "message" ∧
      item.role = m.role ∧
      item.content.map ContentItem.text =
        (m.parts.filterMap fun p => if p.type == "text" then p.text else none) ∧
      (∀ c ∈ item.content,
        c.type = if m.role = Role.assistant then "output_text" else "input_text") ∧
      ∀ c ∈ item.content, (c.type = "output_text" ↔ m.role = Role.assistant) := by
  constructor
  · simp [convertToOpenAIInput]
  · have hitem : (convertToOpenAIInput messages)[i]? = some
        { type := "message", role := m.role,
          content := (m.parts.filter fun p => p.type == "text" && p.text.isSome).map
            fun p =>
              { type := if m.role = Role.assistant then "output_text" else "input_text",
                text := p.text.getD "" } } := by
      rw [convertToOpenAIInput, List.getElem?_map, hget]
      rfl
    refine ⟨_, hitem, rfl, rfl, ?_, ?_, ?_⟩
    · simp only [List.map_map]
      exact textParts_eq_filterMap m.parts
    · intro c hc
      rcases List.mem_map.mp hc with ⟨p, _, rfl⟩
      rfl
    · intro c hc
      rcases List.mem_map.mp hc with ⟨p, _, rfl⟩
      show (if m.role = Role.assistant then "output_text" else "input_text") = "output_text"
        ↔ m.role = Role.assistant
      by_cases hr : m.role = Role.assistant
      · simp [hr]
      · rw [if_neg hr]
        constructor
        · intro hcontra
          exact absurd hcontra (by decide)
        · intro hcontra
          exact absurd hcontra hr

/-- Claim C10 witness: on the concrete two-message list, the theorem
applied at the assistant message (index 0) and at the user message
(index 1); the assistant item keeps only the one proper text, typed
output_text, and the user item's content is typed input_text. -/
theorem c10_convert_shape_witness :
    msgsC10[0]? = some
      { id := ("m1"), role := Role.assistant,
        parts := [{ type := ("text"), text := some ("hi") },
                  { type := ("image"), text := none },
                  { type := ("text"), text := none }] } ∧
    msgsC10[1]? = some
      { id := ("m2"), role := Role.user,
        parts := [{ type := ("text"), text := some ("yo") }] } ∧
    ((convertToOpenAIInput msgsC10).length = msgsC10.length ∧
     ∃ item, (convertToOpenAIInput msgsC10)[0]? = some item ∧
       item.type = "message" ∧
       item.role = Role.assistant ∧
       item.content.map ContentItem.text =
         (([{ type := ("text"), text := some ("hi") },
             { type := ("image"), text := none },
             { type := ("text"), text := none }] : List MessagePart).filterMap
             fun p => if p.type == "text" then p.text else none) ∧
       (∀ c ∈ item.content,
         c.type = if Role.assistant = Role.assistant then "output_text" else "input_text") ∧
       ∀ c ∈ item.content, (c.type = "output_text" ↔ Role.assistant = Role.assistant)) ∧
    ((convertToOpenAIInput msgsC10).length = msgsC10.length ∧
     ∃ item, (convertToOpenAIInput msgsC10)[1]? = some item ∧
       item.type = "message" ∧
       item.role = Role.user ∧
       item.content.map ContentItem.text =
         (([{ type := ("text"), text := some ("yo") }] : List MessagePart).filterMap
             fun p => if p.type == "text" then p.text else none) ∧
       (∀ c ∈ item.content,
         c.type = if Role.user = Role.assistant then "output_text" else "input_text") ∧
       ∀ c ∈ item.content, (c.type = "output_text" ↔ Role.user = Role.assistant)) ∧
    (convertToOpenAIInput msgsC10)[1]? = some
      { type := ("message"), role := Role.user,
        content := [{ type := ("input_text"), text := ("yo") }] } := by
  refine ⟨rfl, rfl, ?_, ?_, rfl⟩
  · exact c10_convert_shape msgsC10 0 _ rfl
  · exact c10_convert_shape msgsC10 1 _ rfl

/-- Scanning a list from the back for the first match equals the last
element of the filtered list. -/
lemma find?_reverse_eq_getLast?_filter {α : Type} (p : α → Bool) (l : List α) :
    l.reverse.find? p = (l.filter p).getLast? := by
  induction l using List.reverseRecOn with
  | nil => rfl
  | append_singleton l a ih =>
      rw [List.reverse_append, List.reverse_singleton, List.singleton_append,
        List.find?_cons, List.filter_append]
      cases hpa : p a with
      | true => simp [hpa, List.filter_cons, List.getLast?_concat]
      | false =>
          show l.reverse.find? p = (List.filter p l ++ List.filter p [a]).getLast?
          rw [List.filter_cons, hpa]
          rw [if_neg (by simp)]
          rw [List.filter_nil, List.append_nil]
          exact ih

/-- Claim C6: the per-turn input decision.  With a stored anchor the
outbound input is the conversion of just the most recent user-authored
message (the item the new turn added) and the anchor rides along as
previous_response_id; without one the input is the conversion of the whole
reconstructed conversation and no anchor is attached. -/
theorem c6_input_selection (s : WsSession) (messages : List ClientMessage) :
    buildTurnRequest s messages =
      if s.previousResponseId.isSome then
        { input := convertToOpenAIInput
            ((messages.filter fun m => m.role == Role.user).getLast?.toList),
          previous_response_id := s.previousResponseId }
      else
        { input := convertToOpenAIInput messages, previous_response_id := none } := by
  cases ha : s.previousResponseId with
  | none => simp [buildTurnRequest, ha]
  | some r =>
      simp only [buildTurnRequest, ha, Option.isSome_some, if_true]
      rw [lastUserMessage, find?_reverse_eq_getLast?_filter]
      cases h : (messages.filter fun m => m.role == Role.user).getLast? with
      | none => simp [Option.toList, convertToOpenAIInput]
      | some m => simp [Option.toList]

/-- The last data-stats payload of a run of the accumulator over at least
one step is the fold of all the step usages. -/
lemma statsFrom_getLast? :
    ∀ (us : List (Option Usage)) (u : Option Usage) (cum : Tokens),
      (statsFrom cum (u :: us)).getLast? = some (us.foldl addUsage (addUsage cum u)) := by
  intro us
  induction us with
  | nil => intro u cum; rfl
  | cons v vs ih =>
      intro u cum
      show (addUsage cum u :: statsFrom (addUsage cum u) (v :: vs)).getLast? = _
      have h2 : statsFrom (addUsage cum u) (v :: vs) =
          addUsage (addUsage cum u) v :: statsFrom (addUsage (addUsage cum u) v) vs := rfl
      rw [h2, List.getLast?_cons_cons, ← h2, ih]
      rfl

/-- Claim C7 counterexample: in the two-turn session where each turn's one
response reports 100 input and 50 output tokens, the data-stats chunk after
turn 2 reports 100 and 50 — not the session-cumulative 200 and 100 the
claim predicts — because the accumulator is declared inside the per-message
handler and restarts at zero on every turn. -/
theorem c7_counterexample :
    ((sessionStats twoTurnUsage).getLast?.bind List.getLast?) =
      some { input := 100, inputCached := 0, output := 50 } ∧
    ((sessionStats twoTurnUsage).getLast?.bind List.getLast?) ≠
      some { input := 200, inputCached := 0, output := 100 } := by
  constructor
  · rfl
  · decide

/-- Claim C7 amended: token usage is cumulative only across the steps of a
single turn — the last data-stats of a turn folds that turn's usages from
zero; a single turn with two 100/50 steps reports 200/100, while the
two-turn session with one 100/50 step each reports 100/50 after turn 2. -/
theorem c7_per_turn_stats (u : Option Usage) (us : List (Option Usage)) :
    (turnStats (u :: us)).getLast? =
      some (us.foldl addUsage (addUsage { input := 0, inputCached := 0, output := 0 } u)) ∧
    (turnStats [some { input_tokens := 100, cached_tokens := 0, output_tokens := 50 },
                some { input_tokens := 100, cached_tokens := 0, output_tokens := 50 }]).getLast? =
      some { input := 200, inputCached := 0, output := 100 } ∧
    sessionStats twoTurnUsage =
      [[{ input := 100, inputCached := 0, output := 50 }],
       [{ input := 100, inputCached := 0, output := 50 }]] :=
  ⟨statsFrom_getLast? us u { input := 0, inputCached := 0, output := 0 }, rfl, rfl⟩

/-- Claim C5 (code bug): after a completed response stored anchor r1 and a
replacement of the upstream connection, the session still holds the stale
anchor, and the next turn's outbound request carries previous_response_id
r1 with only the last user message as input — the anchor is never cleared,
contradicting the required invalidation fallback. -/
theorem c5_stale_anchor_resent :
    (sessionSteps initSession
      [SessionEvent.completedResp ("r1"), SessionEvent.connClosed]).previousResponseId =
      some ("r1") ∧
    buildTurnRequest
        (sessionSteps initSession
          [SessionEvent.completedResp ("r1"), SessionEvent.connClosed]) msgsC5 =
      { input := convertToOpenAIInput [textMsg ("u2") Role.user ("again")],
        previous_response_id := some ("r1") } := by
  constructor
  · rfl
  · rfl

/-- Claim C4 counterexample: in the state where a request is in flight on
open socket 0 (busy), a second getConnection call does not wait — it
constructs and hands back a fresh socket 1, a different connection. -/
theorem c4_counterexample :
    busyState.busy = true ∧
    busyState.ws = some 0 ∧
    (getConnection busyState).1 = Handed.fresh 1 ∧
    handedId (getConnection busyState).1 ≠ 0 := by
  refine ⟨rfl, rfl, rfl, ?_⟩
  decide

/-- Claim C4 amended: a request in flight marks the manager busy, and while
busy a second caller is always handed a freshly constructed connection —
never the in-flight one — instead of waiting. -/
theorem c4_busy_fresh_connection (s : ConnState) (hbusy : s.busy = true) :
    (startRequest s).2.busy = true ∧
    (getConnection s).1 = Handed.fresh s.nextId ∧
    ∀ c, s.ws = some c → c < s.nextId → handedId (getConnection s).1 ≠ c := by
  refine ⟨by simp [startRequest], ?_, ?_⟩
  · simp [getConnection, hbusy]
  · intro c hc hlt
    simp only [getConnection, hbusy]
    simp [handedId]
    omega

/-- Claim C4 amended, witness at the concrete busy state. -/
theorem c4_busy_fresh_connection_witness :
    busyState.busy = true ∧
    ((startRequest busyState).2.busy = true ∧
     (getConnection busyState).1 = Handed.fresh busyState.nextId ∧
     ∀ c, busyState.ws = some c → c < busyState.nextId →
       handedId (getConnection busyState).1 ≠ c) :=
  ⟨rfl, c4_busy_fresh_connection busyState rfl⟩

/-- Claim C2 (code bug): when the upstream stream ends after
response.created with no completed or error frame observed — exactly what
the websocket fetch bridge produces when the connection drops and its
onClose handler closes the SSE stream — the HTTP route's turn ends having
sent only start and start-step: zero terminal chunks, neither finish nor
error, instead of the required terminal error chunk. -/
theorem c2_dropped_connection_no_terminal :
    httpTurn dropUpstream gW hW MAX_STEPS = [Chunk.start ("msg-r1"), Chunk.startStep] ∧
    (httpTurn dropUpstream gW hW MAX_STEPS).countP isTerminalChunk = 0 ∧
    (httpTurn dropUpstream gW hW MAX_STEPS).countP isFinish = 0 := by
  refine ⟨rfl, ?_, ?_⟩ <;> decide

/-- A non-terminal frame at the head of the sequence updates the scratch
state, contributes its chunks and leaves the rest to the recursion. -/
lemma processStep_cons_nonterminal (g : String) (st : TransState) (f : Frame)
    (rest : List Frame) (hf : nonTerminal f = true) :
    processStep g st (f :: rest) =
      ((stepFrame g st f).2 ++ (processStep g (stepFrame g st f).1 rest).1,
       (processStep g (stepFrame g st f).1 rest).2) := by
  cases f <;> first | rfl | simp [nonTerminal] at hf

/-- Skipping a non-terminal head frame does not change which completed
response the sequence reaches. -/
lemma completesWith_cons_nonterminal (n : Nat) (f : Frame) (rest : List Frame)
    (hf : nonTerminal f = true) :
    completesWith n (f :: rest) = completesWith n rest := by
  cases f <;> first | rfl | simp [nonTerminal] at hf

/-- Every chunk sent by a non-terminal switch case belongs to the
translator vocabulary. -/
lemma stepFrame_chunks (g : String) (st : TransState) (f : Frame) :
    ∀ c ∈ (stepFrame g st f).2, translatorChunk c = true := by
  intro c hc
  cases f with
  | responseCreated id =>
      simp only [stepFrame] at hc
      rcases List.mem_append.mp hc with h | h
      · by_cases hfr : st.firstResponse
        · rw [if_pos hfr] at h
          rw [List.mem_singleton.mp h]
          rfl
        · rw [if_neg hfr] at h
          cases h
      · rw [List.mem_singleton.mp h]
        rfl
  | outputTextDelta delta =>
      simp only [stepFrame] at hc
      by_cases hfd : st.isFirstDelta
      · rw [if_pos hfd] at hc
        rcases List.mem_cons.mp hc with h | h
        · rw [h]; rfl
        · rw [List.mem_singleton.mp h]; rfl
      · rw [if_neg hfd] at hc
        rw [List.mem_singleton.mp hc]
        rfl
  | outputTextDone =>
      rw [List.mem_singleton.mp hc]
      rfl
  | outputItemAdded item =>
      simp only [stepFrame, fcOfItem] at hc
      cases item with
      | functionCall fc =>
          simp only [fcOfItem] at hc
          rw [List.mem_singleton.mp hc]
          rfl
      | other => simp only [fcOfItem] at hc; cases hc
  | functionCallArgumentsDelta item_id delta =>
      simp only [stepFrame] at hc
      cases hfind : st.pending.find? (fun t => t.call_id == item_id) with
      | none => rw [hfind] at hc; cases hc
      | some tc =>
          rw [hfind] at hc
          rw [List.mem_singleton.mp hc]
          rfl
  | outputItemDone item =>
      simp only [stepFrame] at hc
      cases item with
      | functionCall fc =>
          simp only [fcOfItem] at hc
          cases hfind : st.pending.find? (fun t => t.call_id == fc.call_id) with
          | none => rw [hfind] at hc; cases hc
          | some tc =>
              rw [hfind] at hc
              rw [List.mem_singleton.mp hc]
              rfl
      | other => simp only [fcOfItem] at hc; cases hc
  | responseCompleted r => cases hc
  | errorFrame m => cases hc
  | unknown => cases hc

/-- Every chunk sent while translating one request's frames belongs to the
translator vocabulary. -/
lemma processStep_chunks (g : String) :
    ∀ (frames : List Frame) (st : TransState) (c : Chunk),
      c ∈ (processStep g st frames).1 → translatorChunk c = true := by
  intro frames
  induction frames with
  | nil => intro st c hc; cases hc
  | cons f rest ih =>
      intro st c hc
      by_cases hf : nonTerminal f = true
      · rw [processStep_cons_nonterminal g st f rest hf] at hc
        rcases List.mem_append.mp hc with h | h
        · exact stepFrame_chunks g st f c h
        · exact ih (stepFrame g st f).1 c h
      · cases f <;> simp [nonTerminal] at hf <;> cases hc

/-- Translator chunks are never finish-step. -/
lemma translatorChunk_not_finishStep (c : Chunk) (h : translatorChunk c = true) :
    isFinishStep c = false := by
  cases c <;> first | rfl | simp [translatorChunk] at h

/-- Translator chunks are never finish. -/
lemma translatorChunk_not_finish (c : Chunk) (h : translatorChunk c = true) :
    isFinish c = false := by
  cases c <;> first | rfl | simp [translatorChunk] at h

/-- The chunks of one translated request contain no finish-step. -/
lemma processStep_countP_finishStep (g : String) (st : TransState) (frames : List Frame) :
    (processStep g st frames).1.countP isFinishStep = 0 := by
  rw [List.countP_eq_zero]
  intro c hc
  simp [translatorChunk_not_finishStep c (processStep_chunks g frames st c hc)]

/-- The chunks of one translated request contain no finish. -/
lemma processStep_countP_finish (g : String) (st : TransState) (frames : List Frame) :
    (processStep g st frames).1.countP isFinish = 0 := by
  rw [List.countP_eq_zero]
  intro c hc
  simp [translatorChunk_not_finish c (processStep_chunks g frames st c hc)]

/-- A tool batch emits only tool-output-available chunks: no finish-step. -/
lemma exec_countP_finishStep (handlers : ToolHandlers) (calls : List FunctionCall) :
    (executeFunctionCalls handlers calls).2.countP isFinishStep = 0 := by
  rw [executeFunctionCalls_eq_map, List.countP_eq_zero]
  intro c hc
  rcases List.mem_map.mp hc with ⟨a, _, rfl⟩
  simp [chunkFor, isFinishStep]

/-- A tool batch emits only tool-output-available chunks: no finish. -/
lemma exec_countP_finish (handlers : ToolHandlers) (calls : List FunctionCall) :
    (executeFunctionCalls handlers calls).2.countP isFinish = 0 := by
  rw [executeFunctionCalls_eq_map, List.countP_eq_zero]
  intro c hc
  rcases List.mem_map.mp hc with ⟨a, _, rfl⟩
  simp [chunkFor, isFinish]

/-- A frame sequence that reaches a completed response with n callable
actions makes processStep resolve with a StepResult of n function calls,
whatever the scratch state. -/
lemma processStep_completes (n : Nat) :
    ∀ (frames : List Frame) (g : String) (st : TransState),
      completesWith n frames = true →
      ∃ cs r b, processStep g st frames = (cs, Outcome.completed r b) ∧
        r.functionCalls.length = n := by
  intro frames
  induction frames with
  | nil => intro g st h; simp [completesWith] at h
  | cons f rest ih =>
      intro g st h
      by_cases hf : nonTerminal f = true
      · rw [completesWith_cons_nonterminal n f rest hf] at h
        obtain ⟨cs, r, b, heq, hlen⟩ := ih g (stepFrame g st f).1 h
        exact ⟨(stepFrame g st f).2 ++ cs, r, b,
          by rw [processStep_cons_nonterminal g st f rest hf, heq], hlen⟩
      · cases f with
        | responseCompleted r =>
            refine ⟨[], _, st.firstResponse, rfl, ?_⟩
            simpa [completesWith] using h
        | errorFrame m => simp [completesWith] at h
        | _ => simp [nonTerminal] at hf

/-- Appending on the left keeps the last element. -/
lemma getLast?_append_some {α : Type} (l₁ l₂ : List α) (a : α)
    (h : l₂.getLast? = some a) : (l₁ ++ l₂).getLast? = some a := by
  have hne : l₂ ≠ [] := by
    intro he
    rw [he] at h
    cases h
  rw [List.getLast?_append_of_ne_nil l₁ hne, h]

/-- Unfolding of the loop when the step completed and either no calls were
requested or the remaining budget is zero: finish-step and finish are sent
after the data-stats chunk and the loop ends with zero further batches. -/
lemma wsLoop_step_done (u : Nat → List Frame) (g : Nat → String) (h : ToolHandlers)
    (rem i : Nat) (fr : Bool) (cum : Tokens) (cs : List Chunk) (r : StepResult) (b : Bool)
    (hps : processStep (g i) (initTransState fr) (u i) = (cs, Outcome.completed r b))
    (hend : r.functionCalls = [] ∨ rem = 0) :
    wsLoop u g h rem i fr cum =
      (cs ++ [Chunk.dataStats (addUsage cum r.usage).input (addUsage cum r.usage).inputCached
          (addUsage cum r.usage).output] ++ [Chunk.finishStep, Chunk.finish], 0) := by
  rcases hend with hfc | hrem
  · cases rem with
    | zero => rw [wsLoop, hps]
    | succ rem2 =>
        rw [wsLoop, hps]
        dsimp only
        rw [hfc]
  · subst hrem
    rw [wsLoop, hps]

/-- Unfolding of the loop when the step completed with requested calls and
budget left: the tool batch runs, finish-step is sent, and the loop
recurses with one more executed batch. -/
lemma wsLoop_step_loop (u : Nat → List Frame) (g : Nat → String) (h : ToolHandlers)
    (rem2 i : Nat) (fr : Bool) (cum : Tokens) (cs : List Chunk) (r : StepResult) (b : Bool)
    (fc : FunctionCall) (fcs : List FunctionCall)
    (hps : processStep (g i) (initTransState fr) (u i) = (cs, Outcome.completed r b))
    (hfc : r.functionCalls = fc :: fcs) :
    wsLoop u g h (rem2 + 1) i fr cum =
      (cs ++ [Chunk.dataStats (addUsage cum r.usage).input (addUsage cum r.usage).inputCached
          (addUsage cum r.usage).output] ++
        (executeFunctionCalls h (fc :: fcs)).2 ++
        Chunk.finishStep :: (wsLoop u g h rem2 (i + 1) b (addUsage cum r.usage)).1,
       (wsLoop u g h rem2 (i + 1) b (addUsage cum r.usage)).2 + 1) := by
  rw [wsLoop, hps]
  dsimp only
  rw [hfc]

/-- The loop never executes more tool batches than the remaining budget
(the final stepCount never exceeds maxSteps), whatever the upstream. -/
lemma wsLoop_batches_le (u : Nat → List Frame) (g : Nat → String) (h : ToolHandlers) :
    ∀ (rem i : Nat) (fr : Bool) (cum : Tokens),
      (wsLoop u g h rem i fr cum).2 ≤ rem := by
  intro rem
  induction rem with
  | zero =>
      intro i fr cum
      rcases hps : processStep (g i) (initTransState fr) (u i) with ⟨cs, out⟩
      cases out with
      | failed m => simp [wsLoop, hps]
      | hung => simp [wsLoop, hps]
      | completed r b =>
          rw [wsLoop_step_done u g h 0 i fr cum cs r b hps (Or.inr rfl)]
  | succ rem2 ih =>
      intro i fr cum
      rcases hps : processStep (g i) (initTransState fr) (u i) with ⟨cs, out⟩
      cases out with
      | failed m => simp [wsLoop, hps]
      | hung => simp [wsLoop, hps]
      | completed r b =>
          cases hfc : r.functionCalls with
          | nil =>
              rw [wsLoop_step_done u g h (rem2 + 1) i fr cum cs r b hps (Or.inl hfc)]
              simp
          | cons fc fcs =>
              rw [wsLoop_step_loop u g h rem2 i fr cum cs r b fc fcs hps hfc]
              exact Nat.succ_le_succ (ih (i + 1) b (addUsage cum r.usage))

/-- With an upstream whose every response requests exactly one callable
action, the loop at remaining budget rem sends rem + 1 finish-step chunks,
executes exactly rem tool batches, and ends with the single finish chunk
last. -/
lemma wsLoop_oneCall (u : Nat → List Frame) (g : Nat → String) (h : ToolHandlers)
    (H : ∀ i, completesWith 1 (u i) = true) :
    ∀ (rem i : Nat) (fr : Bool) (cum : Tokens),
      (wsLoop u g h rem i fr cum).1.countP isFinishStep = rem + 1 ∧
      (wsLoop u g h rem i fr cum).2 = rem ∧
      (wsLoop u g h rem i fr cum).1.getLast? = some Chunk.finish ∧
      (wsLoop u g h rem i fr cum).1.countP isFinish = 1 := by
  intro rem
  induction rem with
  | zero =>
      intro i fr cum
      obtain ⟨cs, r, b, hps, hlen⟩ :=
        processStep_completes 1 (u i) (g i) (initTransState fr) (H i)
      have hcs : cs.countP isFinishStep = 0 := by
        have h0 := processStep_countP_finishStep (g i) (initTransState fr) (u i)
        rw [hps] at h0
        exact h0
      have hcs2 : cs.countP isFinish = 0 := by
        have h0 := processStep_countP_finish (g i) (initTransState fr) (u i)
        rw [hps] at h0
        exact h0
      rw [wsLoop_step_done u g h 0 i fr cum cs r b hps (Or.inr rfl)]
      refine ⟨?_, rfl, ?_, ?_⟩
      · simp [List.countP_append, List.countP_cons, hcs, isFinishStep]
      · exact getLast?_append_some _ _ _ rfl
      · simp [List.countP_append, List.countP_cons, hcs2, isFinish]
  | succ rem2 ih =>
      intro i fr cum
      obtain ⟨cs, r, b, hps, hlen⟩ :=
        processStep_completes 1 (u i) (g i) (initTransState fr) (H i)
      obtain ⟨fc, hfc⟩ := List.length_eq_one.mp hlen
      have hcs : cs.countP isFinishStep = 0 := by
        have h0 := processStep_countP_finishStep (g i) (initTransState fr) (u i)
        rw [hps] at h0
        exact h0
      have hcs2 : cs.countP isFinish = 0 := by
        have h0 := processStep_countP_finish (g i) (initTransState fr) (u i)
        rw [hps] at h0
        exact h0
      obtain ⟨ih1, ih2, ih3, ih4⟩ := ih (i + 1) b (addUsage cum r.usage)
      rw [wsLoop_step_loop u g h rem2 i fr cum cs r b fc [] hps hfc]
      refine ⟨?_, ?_, ?_, ?_⟩
      · simp [List.countP_append, List.countP_cons, hcs,
          exec_countP_finishStep, ih1, isFinishStep]
      · simp [ih2]
      · refine getLast?_append_some _ _ _ ?_
        rw [show Chunk.finishStep :: (wsLoop u g h rem2 (i + 1) b (addUsage cum r.usage)).1 =
          [Chunk.finishStep] ++ (wsLoop u g h rem2 (i + 1) b (addUsage cum r.usage)).1 from rfl]
        exact getLast?_append_some _ _ _ ih3
      · simp [List.countP_append, List.countP_cons, hcs2,
          exec_countP_finish, ih4, isFinish]

/-- Claim C1 amended: with maxSteps = N and an upstream whose every
completed response requests exactly one callable action, the websocket
route's loop emits exactly N + 1 finish-step chunks — one per completed
response, including the final capped response — executes exactly N tool
batches, and terminates with the single finish chunk last; against any
upstream whatsoever the executed batch count (the final stepCount) never
exceeds N. -/
theorem c1_finish_step_count (maxSteps : Nat) (upstream : Nat → List Frame)
    (genTextId : Nat → String) (handlers : ToolHandlers)
    (H : ∀ i, completesWith 1 (upstream i) = true) :
    (wsTurn upstream genTextId handlers maxSteps).1.countP isFinishStep = maxSteps + 1 ∧
    (wsTurn upstream genTextId handlers maxSteps).2 = maxSteps ∧
    (wsTurn upstream genTextId handlers maxSteps).1.getLast? = some Chunk.finish ∧
    (wsTurn upstream genTextId handlers maxSteps).1.countP isFinish = 1 ∧
    ∀ u2 : Nat → List Frame, (wsTurn u2 genTextId handlers maxSteps).2 ≤ maxSteps := by
  obtain ⟨h1, h2, h3, h4⟩ := wsLoop_oneCall upstream genTextId handlers H maxSteps 0 true
    { input := 0, inputCached := 0, output := 0 }
  exact ⟨h1, h2, h3, h4,
    fun u2 => wsLoop_batches_le u2 genTextId handlers maxSteps 0 true
      { input := 0, inputCached := 0, output := 0 }⟩

/-- Claim C1 amended, witness: at maxSteps 2 against the concrete
one-call-per-response upstream, 3 finish-step chunks, 2 batches, finish
last. -/
theorem c1_finish_step_count_witness :
    (∀ i : Nat, completesWith 1 (oneCallUp i) = true) ∧
    ((wsTurn oneCallUp gW hW 2).1.countP isFinishStep = 2 + 1 ∧
     (wsTurn oneCallUp gW hW 2).2 = 2 ∧
     (wsTurn oneCallUp gW hW 2).1.getLast? = some Chunk.finish ∧
     (wsTurn oneCallUp gW hW 2).1.countP isFinish = 1 ∧
     ∀ u2 : Nat → List Frame, (wsTurn u2 gW hW 2).2 ≤ 2) :=
  ⟨fun _ => rfl, c1_finish_step_count 2 oneCallUp gW hW (fun _ => rfl)⟩

/-- Claim C1 counterexample: with maxSteps = 1 and the upstream that always
requests one callable action, the loop emits 2 finish-step chunks, not the
1 the claim predicts. -/
theorem c1_counterexample :
    (∀ i : Nat, completesWith 1 (oneCallUp i) = true) ∧
    (wsTurn oneCallUp gW hW 1).1.countP isFinishStep = 2 ∧
    (wsTurn oneCallUp gW hW 1).1.countP isFinishStep ≠ 1 := by
  refine ⟨fun _ => rfl, ?_, ?_⟩ <;> decide

/-- A run of text-delta frames after the first delta emits one text-delta
chunk per frame, with the already-assigned text-part id and no state
change. -/
lemma processStep_textDeltas (g : String) :
    ∀ (ds : List String) (st : TransState) (rest : List Frame),
      st.isFirstDelta = false →
      processStep g st (ds.map Frame.outputTextDelta ++ rest) =
        (ds.map (Chunk.textDelta st.textPartId) ++ (processStep g st rest).1,
         (processStep g st rest).2) := by
  intro ds
  induction ds with
  | nil => intro st rest hfd; simp
  | cons d ds ih =>
      intro st rest hfd
      rw [List.map_cons, List.cons_append,
        processStep_cons_nonterminal g st (Frame.outputTextDelta d) _ rfl]
      have hsf : stepFrame g st (Frame.outputTextDelta d) =
          (st, [Chunk.textDelta st.textPartId d]) := by
        simp [stepFrame, hfd]
      rw [hsf]
      rw [ih st rest hfd]
      simp

/-- Claim C3 counterexample: the frame sequence created, one text delta,
text-done, completed with no callable actions does not produce the claimed
seven-chunk sequence — a data-stats chunk is also emitted between text-end
and finish-step. -/
theorem c3_counterexample :
    (wsTurn (textOnlyUpstream [("hi")] none) gW hW MAX_STEPS).1 ≠
      [Chunk.start ("msg-r1"), Chunk.startStep, Chunk.textStart ("t0"),
       Chunk.textDelta ("t0") ("hi"), Chunk.textEnd ("t0"),
       Chunk.finishStep, Chunk.finish] := by
  decide

/-- Claim C3 amended: for every k at least 1, the inbound sequence created,
k text deltas, text-done, completed with zero callable actions translates,
on the first response of a conversation and for any maxSteps budget, to
exactly start, start-step, text-start, the k text-deltas, text-end, the
data-stats chunk, finish-step, finish, in that order. -/
theorem c3_translation_sequence (genTextId : Nat → String) (handlers : ToolHandlers)
    (maxSteps : Nat) (d : String) (ds : List String) (u : Option Usage) :
    (wsTurn (textOnlyUpstream (d :: ds) u) genTextId handlers maxSteps).1 =
      Chunk.start ("msg-r1") :: Chunk.startStep :: Chunk.textStart (genTextId 0) ::
        Chunk.textDelta (genTextId 0) d ::
        (ds.map (Chunk.textDelta (genTextId 0)) ++
          [Chunk.textEnd (genTextId 0),
           Chunk.dataStats
             (addUsage { input := 0, inputCached := 0, output := 0 } u).input
             (addUsage { input := 0, inputCached := 0, output := 0 } u).inputCached
             (addUsage { input := 0, inputCached := 0, output := 0 } u).output,
           Chunk.finishStep, Chunk.finish]) := by
  have hstep : processStep (genTextId 0) (initTransState true)
      (textOnlyUpstream (d :: ds) u 0) =
      (Chunk.start ("msg-r1") :: Chunk.startStep :: Chunk.textStart (genTextId 0) ::
         Chunk.textDelta (genTextId 0) d ::
         (ds.map (Chunk.textDelta (genTextId 0)) ++ [Chunk.textEnd (genTextId 0)]),
       Outcome.completed
         { functionCalls := [], responseId := ("r1"), usage := u } false) := by
    show processStep (genTextId 0) (initTransState true)
        (Frame.responseCreated ("r1") ::
          Frame.outputTextDelta d ::
          (ds.map Frame.outputTextDelta ++
            [Frame.outputTextDone,
             Frame.responseCompleted { id := ("r1"), usage := u, output := [] }])) = _
    rw [processStep_cons_nonterminal (genTextId 0) (initTransState true)
      (Frame.responseCreated ("r1")) _ rfl]
    have h1 : stepFrame (genTextId 0) (initTransState true) (Frame.responseCreated ("r1")) =
        ({ pending := [], textPartId := "", isFirstDelta := true, firstResponse := false },
         [Chunk.start ("msg-r1"), Chunk.startStep]) := rfl
    rw [h1]
    rw [processStep_cons_nonterminal (genTextId 0)
      { pending := [], textPartId := "", isFirstDelta := true, firstResponse := false }
      (Frame.outputTextDelta d) _ rfl]
    have h2 : stepFrame (genTextId 0)
        { pending := [], textPartId := "", isFirstDelta := true, firstResponse := false }
        (Frame.outputTextDelta d) =
        ({ pending := [], textPartId := genTextId 0, isFirstDelta := false,
           firstResponse := false },
         [Chunk.textStart (genTextId 0), Chunk.textDelta (genTextId 0) d]) := rfl
    rw [h2]
    rw [processStep_textDeltas (genTextId 0) ds
      { pending := [], textPartId := genTextId 0, isFirstDelta := false,
        firstResponse := false } _ rfl]
    have h3 : processStep (genTextId 0)
        { pending := [], textPartId := genTextId 0, isFirstDelta := false,
          firstResponse := false }
        [Frame.outputTextDone,
         Frame.responseCompleted { id := ("r1"), usage := u, output := [] }] =
        ([Chunk.textEnd (genTextId 0)],
         Outcome.completed
           { functionCalls := [], responseId := ("r1"), usage := u } false) := rfl
    rw [h3]
    simp
  rw [wsTurn, wsLoop_step_done (textOnlyUpstream (d :: ds) u) genTextId handlers
    maxSteps 0 true { input := 0, inputCached := 0, output := 0 } _ _ _ hstep (Or.inl rfl)]
  simp

end WsChat
